import Mathlib

/-!
Verification of the FileSender core (`filesender_core.py`): a shallow
embedding of the transfer protocol engine, the confirmation gate, the server
lifecycle check, peer discovery collection, and the sender operation, with
theorems settling the specification claims.

Modelling conventions:
* Pure string/path helpers mirror the Python builtins used by the source
  (`str.split`, `str.lower`, `int(...)`, `os.path.basename`, `os.path.join`).
* The inbound reception session `_handle_file_reception_task` is embedded as a
  function over an explicit environment (`SessionIn`): what each `recv`
  returned, whether each `sendall` raised, whether `open` raised, and the
  stream of receive events during the byte-copy loop.  Machine sizes are `Int`
  (Python integers are unbounded; `int(...)` may parse negative values).
* The gate's pending set is a `GateState`; the single-slot `Queue(1)` of each
  pending confirmation is an `Option String` slot (`none` = empty,
  `some d` = a decision was placed and not yet consumed).
-/

namespace FileSender

def BUFFER_SIZE : Nat := 4096

def APP_NAME : String := "FileSenderMatrix"

/-- Python `str.lower()` restricted to its ASCII behaviour (all inputs in the
source protocol are ASCII). -/
def pyLower (s : String) : String := ⟨s.data.map Char.toLower⟩

/-- Python `str.split(sep)` for a one-character separator, over the
character list; the result is always non-empty (splitting the empty string
yields one empty segment, as in Python). -/
def splitOnChar (sep : Char) : List Char → List (List Char)
  | [] => [[]]
  | c :: cs =>
    match splitOnChar sep cs with
    | [] => [[c]]
    | seg :: rest => if c = sep then [] :: seg :: rest else (c :: seg) :: rest

/-- Leading and trailing whitespace removal, as `int(...)` performs on its
argument. -/
def pyTrim (cs : List Char) : List Char :=
  ((cs.dropWhile Char.isWhitespace).reverse.dropWhile Char.isWhitespace).reverse

/-- Scan of the characters of a path, restarting the accumulator at every
`/`; the result is the suffix after the last `/`. -/
def basenameAux : List Char → List Char → List Char
  | [], acc => acc
  | c :: cs, acc => if c = '/' then basenameAux cs [] else basenameAux cs (acc ++ [c])

/-- POSIX `os.path.basename`: everything after the last `/`. -/
def pyBasename (s : String) : String := ⟨basenameAux s.data []⟩

/-- POSIX `os.path.join a b` for a single join: `b` absolute wins, otherwise
a `/` is inserted unless `a` is empty or already ends in `/`. -/
def pyJoin (a b : String) : String :=
  if b.data.head? = some '/' then b
  else if a = "" ∨ a.data.getLast? = some '/' then a ++ b
  else (a ++ "/") ++ b

/-- Digit-string to `Nat`; `none` when empty or any non-digit appears. -/
def digitsToNat (cs : List Char) : Option Nat :=
  if cs ≠ [] ∧ cs.all Char.isDigit then
    some (cs.foldl (fun n c => n * 10 + (c.toNat - 48)) 0)
  else none

/-- Python `int(s)` on a decimal string: leading/trailing whitespace stripped,
an optional sign, then digits; `none` models the `ValueError` raised
otherwise.  (PEP 515 underscore separators are not modelled; no claim
involves them.) -/
def pyInt (s : String) : Option Int :=
  match pyTrim s.data with
  | '+' :: rest => (digitsToNat rest).map Int.ofNat
  | '-' :: rest => (digitsToNat rest).map (fun n => -(n : Int))
  | cs => (digitsToNat cs).map Int.ofNat

/-- Lines 83-84: `filename, filesize_str = file_info_str.split(";")` followed
by `filesize = int(filesize_str)`.  The unpacking raises `ValueError` unless
the split yields exactly two parts; `none` models either exception. -/
def parseHeader (s : String) : Option (String × Int) :=
  match splitOnChar ';' s.data with
  | [fn, sz] => (pyInt ⟨sz⟩).map (fun n => (⟨fn⟩, n))
  | _ => none

/-! ## Confirmation gate state -/

/-- One entry of `pending_gui_confirmations` (lines 101-108).  `slot` models
the contents of the item's `Queue(1)` rendezvous channel. -/
structure PendingItem where
  id : String
  filename : String
  filesize : Int
  addr : String
  timestamp : Nat
  slot : Option String
deriving DecidableEq, Repr

/-- The gate's shared state: the `_next_confirmation_id` counter and the
pending list, both guarded by `gui_confirmation_lock`. -/
structure GateState where
  nextId : Nat
  pending : List PendingItem
deriving DecidableEq, Repr

/-- Lines 45-48: `_get_next_confirmation_id` formats the incremented counter. -/
def mkTransferId (n : Nat) : String := "transfer_" ++ toString n

/-- Lines 318-329: `get_pending_confirmations` snapshot — the rendezvous
queue is not exposed. -/
structure PendingView where
  id : String
  filename : String
  filesize : Int
  addr : String
  timestamp : Nat
deriving DecidableEq, Repr

def get_pending_confirmations (st : GateState) : List PendingView :=
  st.pending.map (fun p => ⟨p.id, p.filename, p.filesize, p.addr, p.timestamp⟩)

/-- Lines 331-340 inner loop: scan the pending list in order; on the first
entry with a matching id attempt `put_nowait` — it succeeds exactly when the
`Queue(1)` is empty (`slot = none`), otherwise raises `Full` and the function
returns `False`.  Returns the flag and the updated list. -/
def respondAux (tid decision : String) : List PendingItem → Bool × List PendingItem
  | [] => (false, [])
  | p :: ps =>
    if p.id = tid then
      match p.slot with
      | none => (true, { p with slot := some decision } :: ps)
      | some _ => (false, p :: ps)
    else
      let r := respondAux tid decision ps
      (r.1, p :: r.2)

/-- Lines 331-340: `respond_to_confirmation`. -/
def respond_to_confirmation (st : GateState) (tid decision : String) :
    Bool × GateState :=
  let r := respondAux tid decision st.pending
  (r.1, { st with pending := r.2 })

/-- Lines 98-124: the asynchronous (gui) confirmation branch.  A fresh id is
drawn from the counter, the item is appended to the pending set, the session
blocks on the queue; `resp` is what `response_queue.get(timeout=300)`
produced (`none` = the `Empty` timeout after 300 s).  The `finally` block
removes every entry with the drawn id.  Returns the id, the decision string
and the gate state after the wait returns. -/
def guiDecide (st : GateState) (fname : String) (fsize : Int) (peer : String)
    (now : Nat) (resp : Option String) : String × String × GateState :=
  let tid := mkTransferId (st.nextId + 1)
  let stAdded : GateState :=
    { nextId := st.nextId + 1,
      pending := st.pending ++ [⟨tid, fname, fsize, peer, now, none⟩] }
  let d := match resp with
    | some r => if r = "accept" then "accepted" else "rejected"
    | none => "rejected"
  (tid, d, { stAdded with pending := stAdded.pending.filter (fun p => p.id ≠ tid) })

/-! ## The inbound reception session -/

/-- Protocol reply tokens sent by the receiver. -/
inductive Tok
  | ok
  | rejected
  | rejectedInvalidFilename
  | success
  | failed
  | errorTransfer
deriving DecidableEq, Repr

/-- One iteration of the streaming loop (lines 137-144), as seen by the
session: the stop event was observed set (`shutdown`, line 138-139 raises),
an exception was raised by `recv`/`write` (`err`, e.g. the 20 s socket
timeout or a disk error), or `recv` returned a chunk of `n` bytes
(`chunk 0` is the empty read of a closed connection, line 141-142 breaks). -/
inductive RecvEv
  | chunk (n : Nat)
  | err
  | shutdown
deriving DecidableEq, Repr

/-- Outcome of the streaming loop: it either ran to completion of the
`while` (`done`, reaching line 146 with the byte count) or an exception
escaped it (`exn`, jumping to the handler at line 152 with the bytes written
so far). -/
inductive StreamRes
  | done (written : Nat)
  | exn (written : Nat)
deriving DecidableEq, Repr

/-- Lines 137-144: `while received_bytes < filesize` — check the stop event,
`recv`, `write` the whole chunk, add its length.  An exhausted event list
models the peer having closed the connection (every further `recv` returns
an empty chunk). -/
def streamLoop (filesize : Int) : List RecvEv → Nat → StreamRes
  | [], written => .done written
  | e :: rest, written =>
    if (written : Int) < filesize then
      match e with
      | .shutdown => .exn written
      | .err => .exn written
      | .chunk 0 => .done written
      | .chunk (n + 1) => streamLoop filesize rest (written + (n + 1))
    else .done written

/-- Environment of one reception session: what the connection and operating
system did at each step.  `header` is the decoded first `recv` (`Except` error
= an exception such as the 20 s timeout); `sendFails t` says whether
`conn.sendall` of token `t` raised; `openFails` whether `open(file_path,
"wb")` raised (disk error). -/
structure SessionIn where
  header : Except Unit String
  cliInput : String
  guiResponse : Option String
  peer : String
  now : Nat
  sendFails : Tok → Bool
  openFails : Bool
  stream : List RecvEv

/-- Fate of the destination file when the session ends: never created,
created and then removed (line 151), or still present with `written` bytes. -/
inductive FileFate
  | noFile
  | removed (written : Nat)
  | kept (written : Nat)
deriving DecidableEq, Repr

/-- Observable outcome of one reception session: tokens successfully sent to
the peer in order, the path passed to `open` when it succeeded, the file's
fate, whether the `except` handler at line 152 ran (`faulted`), and the gate
state afterwards. -/
structure SessionOut where
  replies : List Tok
  openedPath : Option String
  fate : FileFate
  faulted : Bool
  gate : GateState
deriving DecidableEq, Repr

/-- The `except` handler at lines 152-156: best-effort `ERROR_TRANSFER`,
failures to send it swallowed. -/
def errOut (st : GateState) (inp : SessionIn) (sent : List Tok)
    (opened : Option String) (fate : FileFate) : SessionOut :=
  { replies := sent ++ (if inp.sendFails .errorTransfer then [] else [.errorTransfer]),
    openedPath := opened, fate := fate, faulted := true, gate := st }

inductive GateMode
  | cli
  | gui
deriving DecidableEq, Repr

/-- Streaming and finalization, lines 132-151, entered after `OK` was sent:
`makedirs`, `open` (POSIX environment fact: opening a path whose final
component is `.` or `..` for writing fails with `IsADirectoryError`, since it
resolves to a directory — `received_files` was just created), the copy loop,
then `SUCCESS`, or `FAILED` followed by `os.remove` (the file exists, having
been created by `open`).  A `sendall` that raises jumps to the handler with
the file still on disk. -/
def receiveBody (st : GateState) (inp : SessionIn) (filename : String)
    (filesize : Int) : SessionOut :=
  let path := pyJoin "received_files" filename
  if inp.openFails ∨ filename = "." ∨ filename = ".." then
    errOut st inp [.ok] none .noFile
  else
    match streamLoop filesize inp.stream 0 with
    | .exn written => errOut st inp [.ok] (some path) (.kept written)
    | .done written =>
      if (written : Int) = filesize then
        if inp.sendFails .success then errOut st inp [.ok] (some path) (.kept written)
        else ⟨[.ok, .success], some path, .kept written, false, st⟩
      else
        if inp.sendFails .failed then errOut st inp [.ok] (some path) (.kept written)
        else ⟨[.ok, .failed], some path, .removed written, false, st⟩

/-- Lines 126-151: the reply to the gate's decision and, on acceptance, the
streaming body.  A raising `sendall` of `OK` or `REJECTED` jumps to the
handler at line 152. -/
def afterDecision (st : GateState) (inp : SessionIn) (filename : String)
    (filesize : Int) (decision : String) : SessionOut :=
  if decision = "accepted" then
    if inp.sendFails .ok then errOut st inp [] none .noFile
    else receiveBody st inp filename filesize
  else
    if inp.sendFails .rejected then errOut st inp [] none .noFile
    else ⟨[.rejected], none, .noFile, false, st⟩

/-- Lines 90-124: the confirmation gate in the configured mode — the
blocking `input(...)` prompt compared to `"yes"` after lowercasing (lines
91-96), or the asynchronous pending-queue wait (lines 98-124).  Returns the
decision string and the gate state afterwards. -/
def sessionDec (mode : GateMode) (st : GateState) (inp : SessionIn)
    (filename : String) (filesize : Int) : String × GateState :=
  match mode with
  | .cli => (if pyLower inp.cliInput = "yes" then "accepted" else "rejected", st)
  | .gui =>
    let r := guiDecide st filename filesize inp.peer inp.now inp.guiResponse
    (r.2.1, r.2.2)

/-- Lines 75-158: `_handle_file_reception_task` for one connection.  Steps:
header recv and parse, `os.path.basename` sanitization, the confirmation
gate in the configured mode, then `afterDecision`.  Any exception lands in
`errOut`. -/
def handleReception (mode : GateMode) (st : GateState) (inp : SessionIn) :
    SessionOut :=
  match inp.header with
  | .error _ => errOut st inp [] none .noFile
  | .ok hdr =>
    if hdr = "" then ⟨[], none, .noFile, false, st⟩
    else
      match parseHeader hdr with
      | none => errOut st inp [] none .noFile
      | some (fn, filesize) =>
        let filename := pyBasename fn
        if filename = "" then
          if inp.sendFails .rejectedInvalidFilename then errOut st inp [] none .noFile
          else ⟨[.rejectedInvalidFilename], none, .noFile, false, st⟩
        else
          let dec := sessionDec mode st inp filename filesize
          afterDecision dec.2 inp filename filesize dec.1

/-- The declared filesize of the session's header, when one was received and
parsed. -/
def declaredSize (inp : SessionIn) : Option Int :=
  match inp.header with
  | .error _ => none
  | .ok hdr => if hdr = "" then none else (parseHeader hdr).map (·.2)

/-! ## Server lifecycle -/

/-- What `start_server` (lines 201-222) observes after the 0.2 s sleep:
whether `server_running` was already set, whether `self.file_listener_socket`
is non-`None`, and whether the listener thread is still alive.  After a bind
failure the listener thread has set the socket back to `None` and returned
(lines 166-171), so it is no longer alive at the check. -/
structure StartObs where
  running : Bool
  listenerSocketIsSome : Bool
  listenerThreadAlive : Bool
deriving DecidableEq, Repr

/-- Lines 201-222: returns the result of `start_server` together with the
value of `server_running` afterwards (`stop_server` resets it to `False`). -/
def start_server (o : StartObs) : Bool × Bool :=
  if o.running then (false, true)
  else if ¬ o.listenerSocketIsSome ∧ o.listenerThreadAlive then (false, false)
  else (true, true)

/-! ## Peer discovery collection -/

/-- A `found_servers` record (lines 256-262). -/
structure FoundServer where
  hostname : String
  ip : String
  app : String
deriving DecidableEq, Repr

/-- The record `search_devices` builds from one datagram whose `split(";")`
has at least two parts; `none` for shorter datagrams (skipped). -/
def mkRecord (d : String) : Option FoundServer :=
  let parts := splitOnChar ';' d.data
  if 2 ≤ parts.length then
    some ⟨⟨parts.getD 0 []⟩, ⟨parts.getD 1 []⟩,
          if 2 < parts.length then ⟨parts.getD 2 []⟩ else ""⟩
  else none

/-- Lines 250-262: the collection loop over the datagrams received before the
timeout, appending a record when the datagram parses and no collected record
already has its address. -/
def collectLoop : List String → List FoundServer → List FoundServer
  | [], acc => acc
  | d :: ds, acc =>
    match mkRecord d with
    | none => collectLoop ds acc
    | some r =>
      if acc.any (fun s => s.ip = r.ip) then collectLoop ds acc
      else collectLoop ds (acc ++ [r])

/-- Lines 243-271: `search_devices` over the finite list of datagrams that
arrived in the window (a socket error or the timeout ends the list), followed
by the final app-tag filter (line 269-271). -/
def search_devices (datagrams : List String) : List FoundServer :=
  (collectLoop datagrams []).filter (fun s => s.app = APP_NAME ∨ s.app = "")

/-! ## The sender operation -/

/-- The outcome dictionaries returned by `send_file`: a success flag and a
message. -/
structure TransferOutcome where
  success : Bool
  message : String
deriving DecidableEq, Repr

/-- The exception classes caught at lines 311-316. -/
inductive SockErr
  | timeout
  | sockErr (msg : String)
  | other (msg : String)
deriving DecidableEq, Repr

/-- What `socket.gethostbyname(target_host)` at line 279 did: returned an
address, raised `socket.gaierror` — the only class the handler at line 280
catches — or raised some other exception.  CPython's IDNA encoding of the
hostname deterministically raises `UnicodeError` (not a `gaierror`) when a
DNS label exceeds 63 characters, e.g. for a 64-character single-label host
name, and `UnicodeError` is covered by no handler in `send_file`. -/
inductive ResolveRes
  | ok (ip : String)
  | gaierror
  | unicodeError
deriving DecidableEq, Repr

/-- Environment of one `send_file` call: the filesystem checks, name
resolution, and the result of each socket operation. -/
structure SendIn where
  fileExists : Bool
  isFile : Bool
  resolve : ResolveRes
  connect : Except SockErr Unit
  sendHeader : Except SockErr Unit
  recvConfirmation : Except SockErr String
  sendChunks : Except SockErr Unit
  recvFinal : Except SockErr String
deriving Repr

/-- Lines 311-316: the three `except` clauses, each returning an outcome. -/
def errOutcome : SockErr → TransferOutcome
  | .timeout => ⟨false, "Connection timeout."⟩
  | .sockErr m => ⟨false, "Socket error: " ++ m⟩
  | .other m => ⟨false, "Error: " ++ m⟩

/-- What the caller of `send_file` observes: a returned outcome dictionary,
or an exception that escaped the function (no handler covers a
non-`gaierror` raised by line 279). -/
inductive SendRes
  | outcome (o : TransferOutcome)
  | uncaught
deriving DecidableEq, Repr

/-- Lines 273-316: `send_file`.  The `try` around line 279 catches only
`socket.gaierror`; the broad handlers at lines 311-316 guard only the
`with`-block below it, so a non-`gaierror` resolution exception propagates. -/
def send_file (target : String) (inp : SendIn) : SendRes :=
  if ¬ (inp.fileExists ∧ inp.isFile) then
    .outcome ⟨false, "File not found or is not a file."⟩
  else
    match inp.resolve with
    | .unicodeError => .uncaught
    | .gaierror => .outcome ⟨false, "Cannot resolve hostname '" ++ target ++ "'."⟩
    | .ok _ =>
      match inp.connect with
      | .error e => .outcome (errOutcome e)
      | .ok _ =>
        match inp.sendHeader with
        | .error e => .outcome (errOutcome e)
        | .ok _ =>
          match inp.recvConfirmation with
          | .error e => .outcome (errOutcome e)
          | .ok conf =>
            if conf = "OK" then
              match inp.sendChunks with
              | .error e => .outcome (errOutcome e)
              | .ok _ =>
                match inp.recvFinal with
                | .error e => .outcome (errOutcome e)
                | .ok fin =>
                  if fin = "SUCCESS" then .outcome ⟨true, "File sent successfully."⟩
                  else .outcome ⟨false, "Recipient error: " ++ fin⟩
            else .outcome ⟨false, "Recipient rejected: " ++ conf⟩

/-! ## Concrete environments used by witnesses and counterexamples -/

/-- A connection on which every `sendall` succeeds. -/
def noSendFail : Tok → Bool := fun _ => false

def c1cexIn : SessionIn :=
  ⟨.ok "a.txt;10", "yes", none, "10.0.0.9", 0, noSendFail, false, [.chunk 3, .shutdown]⟩

def c1okIn : SessionIn :=
  ⟨.ok "a.txt;5", "yes", none, "10.0.0.9", 0, noSendFail, false, [.chunk 5]⟩

def c5cexIn : SessionIn :=
  ⟨.ok "a.txt;1", "yes", none, "10.0.0.9", 0, noSendFail, false, [.chunk 2]⟩

def c5wIn : SessionIn :=
  ⟨.ok "b.txt;3", "yes", none, "10.0.0.9", 0, noSendFail, false, [.chunk 2, .chunk 2]⟩

def c6wIn : SessionIn :=
  ⟨.ok "../../etc/passwd;5", "yes", none, "10.0.0.9", 0, noSendFail, false, [.chunk 5]⟩

def c3wIn : SessionIn :=
  ⟨.ok "doc.pdf;7", "", none, "10.0.0.9", 5, noSendFail, false, []⟩

def c10wIn : SessionIn :=
  ⟨.ok "c.txt;4", "No", none, "10.0.0.9", 0, noSendFail, false, [.chunk 4]⟩

def c4wState : GateState :=
  ⟨1, [⟨"transfer_1", "doc.pdf", 7, "10.0.0.9", 5, none⟩]⟩

def c7wIn : SendIn :=
  ⟨true, true, .ok "192.168.0.2", .ok (), .ok (), .ok "OK", .ok (), .ok "FAILED"⟩

/-- The sender environment for an existing regular file and the 64-character
single-label hostname: `gethostbyname` raises `UnicodeError` (IDNA label too
long), which the `except socket.gaierror` clause does not catch. -/
def c7cexIn : SendIn :=
  ⟨true, true, .unicodeError, .ok (), .ok (), .ok "OK", .ok (), .ok "SUCCESS"⟩

def c8wDs : List String :=
  ["h1;1.1.1.1;FileSenderMatrix", "h2;1.1.1.1;FileSenderMatrix", "h3;2.2.2.2;OtherApp",
   "h4;3.3.3.3", "garbage"]

/-! ## Helper lemmas -/

/-- Projection of a pending item to its external snapshot view. -/
def pviewOf (p : PendingItem) : PendingView :=
  ⟨p.id, p.filename, p.filesize, p.addr, p.timestamp⟩

theorem get_pending_eq_map (st : GateState) :
    get_pending_confirmations st = st.pending.map pviewOf := rfl

theorem respondAux_map_view (tid d : String) :
    ∀ l : List PendingItem, (respondAux tid d l).2.map pviewOf = l.map pviewOf := by
  intro l
  induction l with
  | nil => rfl
  | cons p ps ih =>
    by_cases h : p.id = tid
    · cases hs : p.slot <;> simp [respondAux, h, hs, pviewOf]
    · simp [respondAux, h, ih]

theorem errOutcome_success (e : SockErr) : (errOutcome e).success = false := by
  cases e <;> rfl

end FileSender

/-! ## Claim theorems -/

namespace FileSender

/-- C2: the spec says a listening-socket bind failure makes `start_server`
report failure and leave the server stopped.  The code's check
`not self.file_listener_socket and self.file_listener_thread.is_alive()`
(commented `# Bind failed`) is false after a real bind failure, because the
listener thread has already set the socket to `None` and exited before the
0.2 s sleep ends; `start_server` then sets `server_running = True` and
returns `True`.  This theorem evaluates the embedded lifecycle check at that
observation (stopped server, socket `None`, listener thread dead): the code
reports success, contradicting the claim, and the branch intended for bind
failures fires only while the listener thread is still alive. -/
theorem C2_start_server_bind_failure_reports_success :
    start_server ⟨false, false, false⟩ = (true, true) ∧
    start_server ⟨false, false, true⟩ = (false, false) := by decide

/-- C9: `respond_to_confirmation` never adds or removes entries of the
pending set — the snapshot `get_pending_confirmations` returns, the list of
ids, and the length are all unchanged, whatever the id, the decision and the
return value; only the deciding session's own cleanup removes entries. -/
theorem C9_respond_to_confirmation_frame (st : GateState) (tid d : String) :
    get_pending_confirmations (respond_to_confirmation st tid d).2 =
      get_pending_confirmations st ∧
    (respond_to_confirmation st tid d).2.pending.map PendingItem.id =
      st.pending.map PendingItem.id ∧
    (respond_to_confirmation st tid d).2.pending.length = st.pending.length := by
  have hv : (respond_to_confirmation st tid d).2.pending.map pviewOf =
      st.pending.map pviewOf := respondAux_map_view tid d st.pending
  refine ⟨?_, ?_, ?_⟩
  · rw [get_pending_eq_map, get_pending_eq_map, hv]
  · have h1 : (respond_to_confirmation st tid d).2.pending.map PendingItem.id =
        ((respond_to_confirmation st tid d).2.pending.map pviewOf).map PendingView.id := by
      rw [List.map_map]; rfl
    have h2 : st.pending.map PendingItem.id =
        (st.pending.map pviewOf).map PendingView.id := by
      rw [List.map_map]; rfl
    rw [h1, h2, hv]
  · have h1 : (respond_to_confirmation st tid d).2.pending.length =
        ((respond_to_confirmation st tid d).2.pending.map pviewOf).length := by
      rw [List.length_map]
    rw [h1, hv, List.length_map]

/-- Totality of the embedded `send_file` away from the uncaught resolution
exception: every other environment yields a returned outcome. -/
theorem send_file_total (target : String) (inp : SendIn)
    (hres : inp.resolve ≠ .unicodeError) :
    ∃ o, send_file target inp = .outcome o := by
  rcases inp with ⟨fe, fi, res, con, sh, rc, sc, rf⟩
  rcases res with ip | _ | _
  · simp only [send_file]
    repeat' split
    all_goals exact ⟨_, rfl⟩
  · simp only [send_file]
    repeat' split
    all_goals exact ⟨_, rfl⟩
  · exact absurd rfl hres

/-- C7 (amended): whenever name resolution does not raise a non-`gaierror`
exception, `send_file` returns a structured outcome (the embedding is total
over every combination of filesystem, resolution and socket results, the
caught exception classes included); any returned outcome has its success
flag `true` exactly when every step succeeded, the initial reply was `OK`
and the final status token was `SUCCESS`; any other final token yields a
failure outcome whose message carries that token. -/
theorem C7_send_file_outcome (target : String) (inp : SendIn)
    (hres : inp.resolve ≠ .unicodeError) :
    (∃ o, send_file target inp = .outcome o) ∧
    (∀ o, send_file target inp = .outcome o →
      (o.success = true ↔
        (inp.fileExists = true ∧ inp.isFile = true ∧ (∃ ip, inp.resolve = .ok ip) ∧
         inp.connect = .ok () ∧ inp.sendHeader = .ok () ∧
         inp.recvConfirmation = .ok "OK" ∧ inp.sendChunks = .ok () ∧
         inp.recvFinal = .ok "SUCCESS"))) ∧
    (∀ fin, inp.fileExists = true → inp.isFile = true → (∃ ip, inp.resolve = .ok ip) →
      inp.connect = .ok () → inp.sendHeader = .ok () →
      inp.recvConfirmation = .ok "OK" → inp.sendChunks = .ok () →
      inp.recvFinal = .ok fin → fin ≠ "SUCCESS" →
      send_file target inp = .outcome ⟨false, "Recipient error: " ++ fin⟩) := by
  refine ⟨send_file_total target inp hres, ?_, ?_⟩
  · rcases inp with ⟨fe, fi, res, con, sh, rc, sc, rf⟩
    rcases res with ip | _ | _
    · intro o ho
      constructor
      · intro hsucc
        cases fe
        · simp [send_file] at ho
          subst ho
          simp at hsucc
        cases fi
        · simp [send_file] at ho
          subst ho
          simp at hsucc
        rcases con with e | ⟨⟩
        · simp [send_file] at ho
          subst ho
          simp [errOutcome_success] at hsucc
        rcases sh with e | ⟨⟩
        · simp [send_file] at ho
          subst ho
          simp [errOutcome_success] at hsucc
        rcases rc with e | conf
        · simp [send_file] at ho
          subst ho
          simp [errOutcome_success] at hsucc
        by_cases hc : conf = "OK"
        case neg =>
          simp [send_file, hc] at ho
          subst ho
          simp at hsucc
        subst hc
        rcases sc with e | ⟨⟩
        · simp [send_file] at ho
          subst ho
          simp [errOutcome_success] at hsucc
        rcases rf with e | fin
        · simp [send_file] at ho
          subst ho
          simp [errOutcome_success] at hsucc
        by_cases hfin : fin = "SUCCESS"
        case neg =>
          simp [send_file, hfin] at ho
          subst ho
          simp at hsucc
        subst hfin
        exact ⟨rfl, rfl, ⟨ip, rfl⟩, rfl, rfl, rfl, rfl, rfl⟩
      · rintro ⟨hfe, hfi, ⟨ip2, hip⟩, hcon, hsh, hrc, hsc, hrf⟩
        cases hfe
        cases hfi
        cases hip
        cases hcon
        cases hsh
        cases hrc
        cases hsc
        cases hrf
        simp [send_file] at ho
        subst ho
        rfl
    · intro o ho
      cases fe <;> cases fi <;> simp [send_file] at ho <;> subst ho <;> simp
    · exact absurd rfl hres
  · rcases inp with ⟨fe, fi, res, con, sh, rc, sc, rf⟩
    intro fin hfe hfi hres2 hcon hsh hrc hsc hrf hf
    obtain ⟨ip, hip⟩ := hres2
    cases hfe
    cases hfi
    cases hip
    cases hcon
    cases hsh
    cases hrc
    cases hsc
    cases hrf
    simp [send_file, hf]

/-- C7 counterexample: for an existing regular file and a target hostname
whose single DNS label is 64 characters long, `socket.gethostbyname` raises
`UnicodeError` (IDNA label too long) — not a `socket.gaierror`, the only
class caught at line 280, and outside the `with` block guarded by the broad
handlers — so `send_file` propagates an uncaught exception to the caller
instead of returning a structured outcome, refuting "always returns a
structured outcome ... never propagates a timeout, socket error, or other
exception". -/
theorem C7_counterexample_unicode_uncaught :
    send_file "aaaaaaaaaaaaaaaaaaaaaaaaaaaaaaaaaaaaaaaaaaaaaaaaaaaaaaaaaaaaaaaa"
      c7cexIn = .uncaught := by decide

/-- Witness for the amended C7: a concrete send in which resolution
succeeds, every step succeeds, but the final token is `FAILED` — the
outcome is a failure carrying the token. -/
theorem C7_send_file_outcome_witness :
    send_file "peer" c7wIn = .outcome ⟨false, "Recipient error: " ++ "FAILED"⟩ :=
  (C7_send_file_outcome "peer" c7wIn (by decide)).2.2 "FAILED" rfl rfl
    ⟨"192.168.0.2", rfl⟩ rfl rfl rfl rfl rfl (by decide)

theorem respondAux_not_found (tid d : String) :
    ∀ l : List PendingItem, (∀ p ∈ l, p.id ≠ tid) → respondAux tid d l = (false, l) := by
  intro l
  induction l with
  | nil => intro _; rfl
  | cons p ps ih =>
    intro h
    have hp : ¬ p.id = tid := h p (List.mem_cons_self p ps)
    have hps := ih (fun q hq => h q (List.mem_cons_of_mem p hq))
    simp [respondAux, hp, hps]

theorem respondAux_false_eq (tid d : String) :
    ∀ l : List PendingItem, (respondAux tid d l).1 = false → (respondAux tid d l).2 = l := by
  intro l
  induction l with
  | nil => intro _; rfl
  | cons p ps ih =>
    intro h
    by_cases hp : p.id = tid
    · cases hs : p.slot with
      | none => simp [respondAux, hp, hs] at h
      | some v => simp [respondAux, hp, hs]
    · simp only [respondAux, if_neg hp] at h ⊢
      rw [ih h]

theorem respondAux_found_none (tid d : String) (p : PendingItem)
    (hp : p.id = tid) (hslot : p.slot = none) :
    ∀ l1 l2, (∀ q ∈ l1, q.id ≠ tid) →
      respondAux tid d (l1 ++ p :: l2) = (true, l1 ++ { p with slot := some d } :: l2) := by
  intro l1
  induction l1 with
  | nil =>
    intro l2 _
    simp [respondAux, hp, hslot]
  | cons q qs ih =>
    intro l2 h
    have hq : ¬ q.id = tid := h q (List.mem_cons_self q qs)
    have hqs := ih l2 (fun r hr => h r (List.mem_cons_of_mem q hr))
    simp [respondAux, hq, hqs]

theorem respondAux_found_some (tid d d0 : String) (p : PendingItem)
    (hp : p.id = tid) (hslot : p.slot = some d0) :
    ∀ l1 l2, (∀ q ∈ l1, q.id ≠ tid) →
      respondAux tid d (l1 ++ p :: l2) = (false, l1 ++ p :: l2) := by
  intro l1
  induction l1 with
  | nil =>
    intro l2 _
    simp [respondAux, hp, hslot]
  | cons q qs ih =>
    intro l2 h
    have hq : ¬ q.id = tid := h q (List.mem_cons_self q qs)
    have hqs := ih l2 (fun r hr => h r (List.mem_cons_of_mem q hr))
    simp [respondAux, hq, hqs]

theorem respondAux_true_resolved (tid d d' : String) :
    ∀ l : List PendingItem, (respondAux tid d l).1 = true →
      respondAux tid d' (respondAux tid d l).2 = (false, (respondAux tid d l).2) := by
  intro l
  induction l with
  | nil => intro h; simp [respondAux] at h
  | cons p ps ih =>
    intro h
    by_cases hp : p.id = tid
    · cases hs : p.slot with
      | none => simp [respondAux, hp, hs]
      | some v => simp [respondAux, hp, hs] at h
    · have h' : (respondAux tid d ps).1 = true := by
        simpa [respondAux, hp] using h
      have := ih h'
      simp [respondAux, hp, this]

/-- C4: contract of `respond_to_confirmation`: an unknown id returns `false`
with no side effect; any `false` return leaves the state unchanged (so a
call racing the timeout or arriving after resolution fails cleanly); the
first pending entry with the id yields `true` and stores the decision in its
empty rendezvous slot, while an already-filled slot (`Full` raised by
`put_nowait`) yields `false` unchanged; and after a successful respond a
second respond for the same id returns `false` — so of two calls bracketing
resolution, the second always fails. -/
theorem C4_respond_to_confirmation_contract (st : GateState) (tid d d' : String) :
    ((∀ p ∈ st.pending, p.id ≠ tid) → respond_to_confirmation st tid d = (false, st)) ∧
    ((respond_to_confirmation st tid d).1 = false →
      (respond_to_confirmation st tid d).2 = st) ∧
    (∀ l1 p l2, st.pending = l1 ++ p :: l2 → (∀ q ∈ l1, q.id ≠ tid) → p.id = tid →
      (p.slot = none →
        respond_to_confirmation st tid d =
          (true, { st with pending := l1 ++ { p with slot := some d } :: l2 })) ∧
      (∀ d0, p.slot = some d0 → respond_to_confirmation st tid d = (false, st))) ∧
    ((respond_to_confirmation st tid d).1 = true →
      respond_to_confirmation (respond_to_confirmation st tid d).2 tid d' =
        (false, (respond_to_confirmation st tid d).2)) := by
  refine ⟨?_, ?_, ?_, ?_⟩
  · intro h
    have hr := respondAux_not_found tid d st.pending h
    simp [respond_to_confirmation, hr]
  · intro h
    have h1 : (respondAux tid d st.pending).1 = false := by
      simpa [respond_to_confirmation] using h
    have hr := respondAux_false_eq tid d st.pending h1
    simp [respond_to_confirmation, hr]
  · intro l1 p l2 hsplit hfresh hid
    constructor
    · intro hslot
      have hr := respondAux_found_none tid d p hid hslot l1 l2 hfresh
      simp [respond_to_confirmation, hsplit, hr]
    · intro d0 hslot
      have hr := respondAux_found_some tid d d0 p hid hslot l1 l2 hfresh
      simp [respond_to_confirmation, hsplit, hr]
      rw [← hsplit]
  · intro h
    have h1 : (respondAux tid d st.pending).1 = true := by
      simpa [respond_to_confirmation] using h
    have hr := respondAux_true_resolved tid d d' st.pending h1
    simp [respond_to_confirmation, hr]

/-- Witness for C4 at concrete inputs: responding to the pending, unresolved
id `transfer_1` succeeds and fills the slot; responding to the unknown id
`transfer_9` fails with no side effect. -/
theorem C4_respond_to_confirmation_contract_witness :
    respond_to_confirmation c4wState "transfer_1" "accept" =
      (true, { c4wState with
               pending := [⟨"transfer_1", "doc.pdf", 7, "10.0.0.9", 5, some "accept"⟩] }) ∧
    respond_to_confirmation c4wState "transfer_9" "accept" = (false, c4wState) := by
  constructor
  · have h := (C4_respond_to_confirmation_contract c4wState "transfer_1" "accept" "x").2.2.1
      [] ⟨"transfer_1", "doc.pdf", 7, "10.0.0.9", 5, none⟩ [] rfl (by simp) rfl
    exact h.1 rfl
  · exact (C4_respond_to_confirmation_contract c4wState "transfer_9" "accept" "x").1
      (by decide)

theorem receiveBody_gate (st : GateState) (inp : SessionIn) (f : String) (n : Int) :
    (receiveBody st inp f n).gate = st := by
  simp only [receiveBody]
  repeat' split
  all_goals rfl

theorem receiveBody_head_ok (st : GateState) (inp : SessionIn) (f : String) (n : Int) :
    (receiveBody st inp f n).replies.head? = some .ok := by
  simp only [receiveBody]
  repeat' split
  all_goals rfl

theorem receiveBody_kept (st : GateState) (inp : SessionIn) (f : String) (n : Int) (b : Nat)
    (hf : (receiveBody st inp f n).faulted = false)
    (hk : (receiveBody st inp f n).fate = .kept b) : (b : Int) = n := by
  by_cases hc : (inp.openFails = true ∨ f = "." ∨ f = "..")
  · simp [receiveBody, hc, errOut] at hf
  · cases hsl : streamLoop n inp.stream 0 with
    | done w =>
      by_cases hw : (w : Int) = n
      · by_cases hs : inp.sendFails .success
        · simp [receiveBody, hc, hsl, hw, hs, errOut] at hf
        · simp [receiveBody, hc, hsl, hw, hs] at hk
          rw [← hk]; exact hw
      · by_cases hs : inp.sendFails .failed
        · simp [receiveBody, hc, hsl, hw, hs, errOut] at hf
        · simp [receiveBody, hc, hsl, hw, hs] at hk
    | exn w =>
      simp [receiveBody, hc, hsl, errOut] at hf

theorem receiveBody_opened (st : GateState) (inp : SessionIn) (f : String) (n : Int)
    (p : String) (h : (receiveBody st inp f n).openedPath = some p) :
    p = pyJoin "received_files" f ∧ f ≠ "." ∧ f ≠ ".." := by
  by_cases hc : (inp.openFails = true ∨ f = "." ∨ f = "..")
  · simp [receiveBody, hc, errOut] at h
  · push_neg at hc
    refine ⟨?_, hc.2.1, hc.2.2⟩
    have hc' : ¬ (inp.openFails = true ∨ f = "." ∨ f = "..") := by
      simp [hc.1, hc.2.1, hc.2.2]
    cases hsl : streamLoop n inp.stream 0 with
    | done w =>
      by_cases hw : (w : Int) = n
      · by_cases hs : inp.sendFails .success
        · simp [receiveBody, hc', hsl, hw, hs, errOut] at h
          exact h.symm
        · simp [receiveBody, hc', hsl, hw, hs] at h
          exact h.symm
      · by_cases hs : inp.sendFails .failed
        · simp [receiveBody, hc', hsl, hw, hs, errOut] at h
          exact h.symm
        · simp [receiveBody, hc', hsl, hw, hs] at h
          exact h.symm
    | exn w =>
      simp [receiveBody, hc', hsl, errOut] at h
      exact h.symm

theorem afterDecision_gate (st : GateState) (inp : SessionIn) (f : String) (n : Int)
    (d : String) : (afterDecision st inp f n d).gate = st := by
  simp only [afterDecision]
  split
  · split
    · rfl
    · exact receiveBody_gate st inp f n
  · split <;> rfl

theorem afterDecision_rejected (st : GateState) (inp : SessionIn) (f : String) (n : Int)
    (d : String) (hd : d ≠ "accepted") (hs : inp.sendFails .rejected = false) :
    afterDecision st inp f n d = ⟨[.rejected], none, .noFile, false, st⟩ := by
  simp [afterDecision, hd, hs]

theorem afterDecision_head_ok (st : GateState) (inp : SessionIn) (f : String) (n : Int)
    (hs : inp.sendFails .ok = false) :
    (afterDecision st inp f n "accepted").replies.head? = some .ok := by
  simp [afterDecision, hs, receiveBody_head_ok]

theorem afterDecision_not_ok (st : GateState) (inp : SessionIn) (f : String) (n : Int)
    (d : String) (hd : d ≠ "accepted") :
    (afterDecision st inp f n d).replies.head? ≠ some .ok := by
  simp only [afterDecision, if_neg hd]
  split
  · simp only [errOut, List.nil_append]
    split <;> simp
  · simp

theorem afterDecision_noFile (st : GateState) (inp : SessionIn) (f : String) (n : Int)
    (d : String) (hd : d ≠ "accepted") :
    (afterDecision st inp f n d).openedPath = none ∧
    (afterDecision st inp f n d).fate = .noFile := by
  simp only [afterDecision, if_neg hd]
  split <;> simp [errOut]

theorem afterDecision_kept (st : GateState) (inp : SessionIn) (f : String) (n : Int)
    (d : String) (b : Nat)
    (hf : (afterDecision st inp f n d).faulted = false)
    (hk : (afterDecision st inp f n d).fate = .kept b) : (b : Int) = n := by
  by_cases hd : d = "accepted"
  · by_cases ho : inp.sendFails .ok
    · simp [afterDecision, hd, ho, errOut] at hf
    · exact receiveBody_kept st inp f n b
        (by simpa [afterDecision, hd, ho] using hf)
        (by simpa [afterDecision, hd, ho] using hk)
  · by_cases hr : inp.sendFails .rejected
    · simp [afterDecision, hd, hr, errOut] at hf
    · simp [afterDecision, hd, hr] at hk

theorem afterDecision_opened (st : GateState) (inp : SessionIn) (f : String) (n : Int)
    (d : String) (p : String)
    (h : (afterDecision st inp f n d).openedPath = some p) :
    p = pyJoin "received_files" f ∧ f ≠ "." ∧ f ≠ ".." := by
  by_cases hd : d = "accepted"
  · by_cases ho : inp.sendFails .ok
    · simp [afterDecision, hd, ho, errOut] at h
    · exact receiveBody_opened st inp f n p (by simpa [afterDecision, hd, ho] using h)
  · have := (afterDecision_noFile st inp f n d hd).1
    rw [this] at h
    cases h

theorem handleReception_reduce (mode : GateMode) (st : GateState) (inp : SessionIn)
    (s fn : String) (fs : Int)
    (hh : inp.header = .ok s) (hs : s ≠ "") (hp : parseHeader s = some (fn, fs))
    (hb : pyBasename fn ≠ "") :
    handleReception mode st inp =
      afterDecision (sessionDec mode st inp (pyBasename fn) fs).2 inp (pyBasename fn) fs
        (sessionDec mode st inp (pyBasename fn) fs).1 := by
  simp [handleReception, hh, hs, hp, hb]

theorem guiDecide_pending (st : GateState) (f : String) (n : Int) (peer : String)
    (now : Nat) (resp : Option String)
    (hfresh : ∀ p ∈ st.pending, p.id ≠ mkTransferId (st.nextId + 1)) :
    (guiDecide st f n peer now resp).2.2.pending = st.pending := by
  simp only [guiDecide]
  rw [List.filter_append]
  have h1 : st.pending.filter
      (fun p => decide ¬ p.id = mkTransferId (st.nextId + 1)) = st.pending := by
    rw [List.filter_eq_self]
    intro a ha
    simpa using hfresh a ha
  have h2 : [(⟨mkTransferId (st.nextId + 1), f, n, peer, now, none⟩ : PendingItem)].filter
      (fun p => decide ¬ p.id = mkTransferId (st.nextId + 1)) = [] := by
    simp
  simp only at h1 h2 ⊢
  rw [h1, h2, List.append_nil]

theorem guiDecide_timeout (st : GateState) (f : String) (n : Int) (peer : String)
    (now : Nat) : (guiDecide st f n peer now none).2.1 = "rejected" := rfl

/-- C3: in asynchronous (gui) mode the deciding session appends one fresh
pending entry, waits, and its `finally` cleanup removes every entry with the
drawn id before the wait returns — so under the counter's freshness
invariant the pending set returns exactly to its prior value (no duplicate
entry, no leaked entry), no entry with the id remains, and this holds both
when an external decision arrived and on the 300 s timeout path, where the
session then sends the `REJECTED` token and streams nothing. -/
theorem C3_gui_timeout_rejected_and_removed (st : GateState) (inp : SessionIn)
    (s fn : String) (fs : Int)
    (hh : inp.header = .ok s) (hs : s ≠ "") (hp : parseHeader s = some (fn, fs))
    (hb : pyBasename fn ≠ "")
    (hfresh : ∀ p ∈ st.pending, p.id ≠ mkTransferId (st.nextId + 1)) :
    (handleReception .gui st inp).gate.pending = st.pending ∧
    (handleReception .gui st inp).gate.pending.countP
      (fun p => p.id = mkTransferId (st.nextId + 1)) = 0 ∧
    (inp.guiResponse = none → inp.sendFails .rejected = false →
      (handleReception .gui st inp).replies = [.rejected] ∧
      (handleReception .gui st inp).fate = .noFile ∧
      (handleReception .gui st inp).openedPath = none) := by
  rw [handleReception_reduce .gui st inp s fn fs hh hs hp hb]
  have hgate : (sessionDec .gui st inp (pyBasename fn) fs).2.pending = st.pending := by
    simp only [sessionDec]
    exact guiDecide_pending st (pyBasename fn) fs inp.peer inp.now inp.guiResponse hfresh
  refine ⟨?_, ?_, ?_⟩
  · rw [afterDecision_gate, hgate]
  · rw [afterDecision_gate, hgate]
    rw [List.countP_eq_zero]
    intro p hp'
    simpa using hfresh p hp'
  · intro hresp hsend
    have hdec : (sessionDec .gui st inp (pyBasename fn) fs).1 = "rejected" := by
      simp only [sessionDec]
      rw [hresp]
      exact guiDecide_timeout st (pyBasename fn) fs inp.peer inp.now
    rw [hdec, afterDecision_rejected _ _ _ _ _ (by decide) hsend]
    exact ⟨rfl, rfl, rfl⟩

/-- Witness for C3: a concrete gui session whose confirmation times out —
the peer gets `REJECTED`, nothing is streamed, and the pending set is left
exactly empty again. -/
theorem C3_gui_timeout_rejected_and_removed_witness :
    (handleReception .gui ⟨0, []⟩ c3wIn).gate.pending = [] ∧
    (handleReception .gui ⟨0, []⟩ c3wIn).replies = [.rejected] := by
  have h := C3_gui_timeout_rejected_and_removed ⟨0, []⟩ c3wIn "doc.pdf;7" "doc.pdf" 7
    rfl (by decide) (by decide) (by decide) (by simp)
  exact ⟨h.1, (h.2.2 rfl rfl).1⟩

/-- C10: in synchronous (cli) mode an inbound transfer is accepted — the
peer receives `OK` as the first reply token — exactly when the operator's
input, lowercased, is the string `yes`; any other input (`y`, the empty
string, `yes` with trailing whitespace, ...) makes the session send
`REJECTED` and terminate without creating or opening any file. -/
theorem C10_cli_accept_iff_yes (st : GateState) (inp : SessionIn)
    (s fn : String) (fs : Int)
    (hh : inp.header = .ok s) (hs : s ≠ "") (hp : parseHeader s = some (fn, fs))
    (hb : pyBasename fn ≠ "") (hok : inp.sendFails .ok = false) :
    ((handleReception .cli st inp).replies.head? = some .ok ↔
      pyLower inp.cliInput = "yes") ∧
    (pyLower inp.cliInput ≠ "yes" →
      (handleReception .cli st inp).fate = .noFile ∧
      (handleReception .cli st inp).openedPath = none ∧
      (inp.sendFails .rejected = false →
        (handleReception .cli st inp).replies = [.rejected])) := by
  rw [handleReception_reduce .cli st inp s fn fs hh hs hp hb]
  by_cases hyes : pyLower inp.cliInput = "yes"
  · have hdec : sessionDec .cli st inp (pyBasename fn) fs = ("accepted", st) := by
      simp [sessionDec, hyes]
    rw [hdec]
    constructor
    · simp only [hyes, iff_true]
      exact afterDecision_head_ok st inp (pyBasename fn) fs hok
    · intro hno
      exact absurd hyes hno
  · have hdec : sessionDec .cli st inp (pyBasename fn) fs = ("rejected", st) := by
      simp [sessionDec, hyes]
    rw [hdec]
    constructor
    · simp only [hyes, iff_false]
      exact afterDecision_not_ok st inp (pyBasename fn) fs "rejected" (by decide)
    · intro _
      have hnf := afterDecision_noFile st inp (pyBasename fn) fs "rejected" (by decide)
      refine ⟨hnf.2, hnf.1, ?_⟩
      intro hsend
      rw [afterDecision_rejected st inp (pyBasename fn) fs "rejected" (by decide) hsend]

/-- Witness for C10: the concrete operator input `No` is lowercased to `no`,
which is not `yes`, so the session replies `REJECTED` and opens no file. -/
theorem C10_cli_accept_iff_yes_witness :
    (handleReception .cli ⟨0, []⟩ c10wIn).replies = [.rejected] ∧
    (handleReception .cli ⟨0, []⟩ c10wIn).openedPath = none := by
  have h := C10_cli_accept_iff_yes ⟨0, []⟩ c10wIn "c.txt;4" "c.txt" 4
    rfl (by decide) (by decide) (by decide) rfl
  have h2 := h.2 (by decide)
  exact ⟨h2.2.2 rfl, h2.2.1⟩

/-- C1 (amended): on every path that does not raise — where the `except`
handler at line 152 did not run — a file is kept under its final name only
when the bytes received equal the declared filesize.  (The original claim
extended this to exception paths; the counterexample shows the handler
deletes nothing.) -/
theorem C1_kept_only_when_complete (mode : GateMode) (st : GateState) (inp : SessionIn)
    (b : Nat)
    (hf : (handleReception mode st inp).faulted = false)
    (hk : (handleReception mode st inp).fate = .kept b) :
    declaredSize inp = some (b : Int) := by
  cases hh : inp.header with
  | error u => simp [handleReception, hh, errOut] at hf
  | ok s =>
    by_cases hs : s = ""
    · simp [handleReception, hh, hs] at hk
    · cases hp : parseHeader s with
      | none => simp [handleReception, hh, hs, hp, errOut] at hf
      | some pr =>
        obtain ⟨fn, fs⟩ := pr
        by_cases hb : pyBasename fn = ""
        · by_cases hrs : inp.sendFails .rejectedInvalidFilename
          · simp [handleReception, hh, hs, hp, hb, hrs, errOut] at hf
          · simp [handleReception, hh, hs, hp, hb, hrs] at hk
        · rw [handleReception_reduce mode st inp s fn fs hh hs hp hb] at hf hk
          have hbn := afterDecision_kept _ inp (pyBasename fn) fs _ b hf hk
          simp only [declaredSize, hh, hs, hp, if_neg hs, Option.map_some]
          exact congrArg some hbn.symm

/-- C1 counterexample: a session whose header declares 10 bytes, is accepted,
receives a 3-byte chunk and is then interrupted by the server-shutdown
exception: the handler sends `ERROR_TRANSFER` and closes, and the partial
3-byte file remains on disk under its final sanitized name — the claim's
"no file remains when bytes received differ from the declared filesize"
fails on the exception paths. -/
theorem C1_counterexample_shutdown_keeps_partial :
    declaredSize c1cexIn = some 10 ∧
    handleReception .cli ⟨0, []⟩ c1cexIn =
      ⟨[.ok, .errorTransfer], some "received_files/a.txt", .kept 3, true, ⟨0, []⟩⟩ := by
  exact ⟨by decide, by decide⟩

/-- Witness for the amended C1 at a complete 5-of-5-bytes transfer. -/
theorem C1_kept_only_when_complete_witness :
    declaredSize c1okIn = some ((5 : Nat) : Int) :=
  C1_kept_only_when_complete .cli ⟨0, []⟩ c1okIn 5 (by decide) (by decide)

theorem basenameAux_no_slash :
    ∀ cs acc : List Char, '/' ∉ acc → '/' ∉ basenameAux cs acc := by
  intro cs
  induction cs with
  | nil => intro acc h; simpa [basenameAux] using h
  | cons c cs ih =>
    intro acc h
    by_cases hc : c = '/'
    · rw [basenameAux, if_pos hc]
      exact ih [] (by simp)
    · rw [basenameAux, if_neg hc]
      refine ih (acc ++ [c]) ?_
      intro hmem
      rcases List.mem_append.mp hmem with h1 | h1
      · exact h h1
      · rw [List.mem_singleton] at h1
        exact hc h1.symm

theorem pyBasename_no_slash (s : String) : '/' ∉ (pyBasename s).data :=
  basenameAux_no_slash s.data [] (by simp)

theorem pyJoin_received (b : String) (hb : '/' ∉ b.data) :
    pyJoin "received_files" b = "received_files/" ++ b := by
  have h1 : ¬ b.data.head? = some '/' := by
    intro hh
    cases hd : b.data with
    | nil => rw [hd] at hh; cases hh
    | cons c cs =>
      rw [hd] at hh
      simp only [List.head?_cons, Option.some.injEq] at hh
      rw [hd] at hb
      exact hb (by simp [hh])
  have h2 : ¬ ((("received_files" : String) = "") ∨
      ("received_files" : String).data.getLast? = some '/') := by decide
  unfold pyJoin
  rw [if_neg h1, if_neg h2]
  exact congrArg (· ++ b) (by decide)

/-- C6: every received filename is sanitized with `os.path.basename` before
use: the sanitized name contains no path separator; when it is empty the
session replies `REJECTED_INVALID_FILENAME` and terminates without opening
or creating any file; and whenever the session opens a destination file at
all, the opened path is exactly the destination directory followed by the
separator-free, non-empty sanitized name (never `.` or `..`, whose open for
writing fails on POSIX) — so no inbound name, path-traversal segments such
as `../../etc/passwd` included, causes a write outside the destination
directory. -/
theorem C6_basename_sanitization (mode : GateMode) (st : GateState) (inp : SessionIn)
    (s fn : String) (fs : Int)
    (hh : inp.header = .ok s) (hs : s ≠ "") (hp : parseHeader s = some (fn, fs)) :
    ('/' ∉ (pyBasename fn).data) ∧
    (pyBasename fn = "" → inp.sendFails .rejectedInvalidFilename = false →
      handleReception mode st inp =
        ⟨[.rejectedInvalidFilename], none, .noFile, false, st⟩) ∧
    (∀ p, (handleReception mode st inp).openedPath = some p →
      p = "received_files/" ++ pyBasename fn ∧ pyBasename fn ≠ "" ∧
      pyBasename fn ≠ "." ∧ pyBasename fn ≠ ".." ∧ '/' ∉ (pyBasename fn).data) := by
  refine ⟨pyBasename_no_slash fn, ?_, ?_⟩
  · intro hbe hsendf
    simp [handleReception, hh, hs, hp, hbe, hsendf]
  · intro p hop
    by_cases hb : pyBasename fn = ""
    · by_cases hrs : inp.sendFails .rejectedInvalidFilename
      · simp [handleReception, hh, hs, hp, hb, hrs, errOut] at hop
      · simp [handleReception, hh, hs, hp, hb, hrs] at hop
    · rw [handleReception_reduce mode st inp s fn fs hh hs hp hb] at hop
      obtain ⟨hpj, hd1, hd2⟩ := afterDecision_opened _ inp (pyBasename fn) fs _ p hop
      refine ⟨?_, hb, hd1, hd2, pyBasename_no_slash fn⟩
      rw [hpj, pyJoin_received (pyBasename fn) (pyBasename_no_slash fn)]

/-- Witness for C6: the traversal filename `../../etc/passwd` is accepted
after sanitization to `passwd`, and the file the session opens is exactly
`received_files/passwd`, directly inside the destination directory. -/
theorem C6_basename_sanitization_witness :
    "received_files/passwd" = "received_files/" ++ pyBasename "../../etc/passwd" ∧
    pyBasename "../../etc/passwd" ≠ "" ∧ pyBasename "../../etc/passwd" ≠ "." ∧
    pyBasename "../../etc/passwd" ≠ ".." ∧ '/' ∉ (pyBasename "../../etc/passwd").data :=
  (C6_basename_sanitization .cli ⟨0, []⟩ c6wIn "../../etc/passwd;5"
    "../../etc/passwd" 5 rfl (by decide) (by decide)).2.2
    "received_files/passwd" (by decide)

theorem streamLoop_done_bound (fs : Int) :
    ∀ (evs : List RecvEv) (w0 w : Nat),
      (∀ n, RecvEv.chunk n ∈ evs → n ≤ BUFFER_SIZE) →
      streamLoop fs evs w0 = .done w →
      w = w0 ∨ (w : Int) < fs + (BUFFER_SIZE : Int) := by
  intro evs
  induction evs with
  | nil =>
    intro w0 w _ h
    left
    have h' := h
    simp [streamLoop] at h'
    omega
  | cons e rest ih =>
    intro w0 w hb h
    by_cases hw : (w0 : Int) < fs
    · cases e with
      | shutdown => simp [streamLoop, hw] at h
      | err => simp [streamLoop, hw] at h
      | chunk n =>
        cases n with
        | zero =>
          left
          have h' := h
          simp [streamLoop, hw] at h'
          omega
        | succ m =>
          have h' : streamLoop fs rest (w0 + (m + 1)) = .done w := by
            simpa [streamLoop, hw] using h
          have hbm : m + 1 ≤ BUFFER_SIZE := hb (m + 1) (by simp)
          have hbr : ∀ k, RecvEv.chunk k ∈ rest → k ≤ BUFFER_SIZE :=
            fun k hk => hb k (List.mem_cons_of_mem _ hk)
          rcases ih (w0 + (m + 1)) w hbr h' with heq | hlt
          · right
            subst heq
            push_cast
            omega
          · right; exact hlt
    · left
      have h' := h
      simp [streamLoop, hw] at h'
      omega

/-- C5 (amended): for an accepted transfer the receiver copies arriving
chunks whole into the destination file until the byte count reaches the
declared filesize or the connection closes early — so when every chunk is at
most `BUFFER_SIZE` bytes, the bytes written either are those of an early
close or overshoot the declared size by less than one buffer (the final
chunk is written in full even when it passes `filesize`, which is why
"never more than filesize bytes" fails); afterwards it replies `SUCCESS` and
keeps the file exactly when the bytes received equal the declared filesize,
and otherwise replies `FAILED` and deletes the partial file. -/
theorem C5_stream_and_finalize (st : GateState) (inp : SessionIn)
    (s fn : String) (fs : Int) (w : Nat)
    (hh : inp.header = .ok s) (hs : s ≠ "") (hp : parseHeader s = some (fn, fs))
    (hb : pyBasename fn ≠ "") (hd1 : pyBasename fn ≠ ".") (hd2 : pyBasename fn ≠ "..")
    (hyes : pyLower inp.cliInput = "yes") (hok : inp.sendFails .ok = false)
    (hopen : inp.openFails = false)
    (hsl : streamLoop fs inp.stream 0 = .done w)
    (hbuf : ∀ n, RecvEv.chunk n ∈ inp.stream → n ≤ BUFFER_SIZE) :
    (w = 0 ∨ (w : Int) < fs + (BUFFER_SIZE : Int)) ∧
    ((w : Int) = fs → inp.sendFails .success = false →
      handleReception .cli st inp =
        ⟨[.ok, .success], some (pyJoin "received_files" (pyBasename fn)),
          .kept w, false, st⟩) ∧
    ((w : Int) ≠ fs → inp.sendFails .failed = false →
      handleReception .cli st inp =
        ⟨[.ok, .failed], some (pyJoin "received_files" (pyBasename fn)),
          .removed w, false, st⟩) := by
  have hred := handleReception_reduce .cli st inp s fn fs hh hs hp hb
  have hdec : sessionDec .cli st inp (pyBasename fn) fs = ("accepted", st) := by
    simp [sessionDec, hyes]
  have hc' : ¬ (inp.openFails = true ∨ pyBasename fn = "." ∨ pyBasename fn = "..") := by
    simp [hopen, hd1, hd2]
  refine ⟨streamLoop_done_bound fs inp.stream 0 w hbuf hsl, ?_, ?_⟩
  · intro hweq hsucc
    rw [hred, hdec]
    simp [afterDecision, hok, receiveBody, hc', hsl, hweq, hsucc]
  · intro hwne hfail
    rw [hred, hdec]
    simp [afterDecision, hok, receiveBody, hc', hsl, hwne, hfail]

/-- C5 counterexample: the header declares 1 byte but a single 2-byte chunk
arrives; the loop condition `received_bytes < filesize` admits the read and
the whole chunk is written, so 2 bytes — more than the declared filesize —
are written to the file before the mismatch is noticed, `FAILED` is sent and
the file deleted.  This refutes "until exactly the declared filesize bytes
have been written ... never writing more than filesize bytes to the file". -/
theorem C5_counterexample_overshoot_write :
    declaredSize c5cexIn = some 1 ∧
    handleReception .cli ⟨0, []⟩ c5cexIn =
      ⟨[.ok, .failed], some "received_files/a.txt", .removed 2, false, ⟨0, []⟩⟩ ∧
    ((1 : Int) < (2 : Int)) :=
  ⟨by decide, by decide, by decide⟩

/-- Witness for the amended C5: 4 bytes arrive against a declared size of 3,
the reply is `FAILED` and the partial file is removed. -/
theorem C5_stream_and_finalize_witness :
    handleReception .cli ⟨0, []⟩ c5wIn =
      ⟨[.ok, .failed], some (pyJoin "received_files" (pyBasename "b.txt")),
        .removed 4, false, ⟨0, []⟩⟩ := by
  have h := C5_stream_and_finalize ⟨0, []⟩ c5wIn "b.txt;3" "b.txt" 3 4
    rfl (by decide) (by decide) (by decide) (by decide) (by decide) (by decide)
    rfl rfl (by decide)
    (by intro n hn
        simp [c5wIn, BUFFER_SIZE] at hn ⊢
        omega)
  exact h.2.2 (by decide) rfl

theorem collectLoop_nodup (ds : List String) :
    ∀ acc : List FoundServer, (acc.map FoundServer.ip).Nodup →
      ((collectLoop ds acc).map FoundServer.ip).Nodup := by
  induction ds with
  | nil => intro acc h; simpa [collectLoop] using h
  | cons d ds ih =>
    intro acc h
    cases hm : mkRecord d with
    | none => simpa [collectLoop, hm] using ih acc h
    | some r =>
      by_cases hdup : acc.any (fun s => s.ip = r.ip)
      · simpa [collectLoop, hm, hdup] using ih acc h
      · have hnotin : r.ip ∉ acc.map FoundServer.ip := by
          simp only [List.any_eq_true, decide_eq_true_eq] at hdup
          simp only [List.mem_map, not_exists]
          intro a hcontra
          exact hdup ⟨a, hcontra.1, hcontra.2⟩
        have h' : ((acc ++ [r]).map FoundServer.ip).Nodup := by
          rw [List.map_append]
          simp [List.nodup_append, h, hnotin]
        simpa [collectLoop, hm, hdup] using ih (acc ++ [r]) h'

theorem collectLoop_first (ds : List String) :
    ∀ acc r, r ∈ collectLoop ds acc →
      r ∈ acc ∨ ∃ pre d post, ds = pre ++ d :: post ∧ mkRecord d = some r ∧
        (∀ d' ∈ pre, ∀ r', mkRecord d' = some r' → r'.ip ≠ r.ip) ∧
        (∀ a ∈ acc, a.ip ≠ r.ip) := by
  induction ds with
  | nil =>
    intro acc r h
    left
    simpa [collectLoop] using h
  | cons d ds ih =>
    intro acc r h
    cases hm : mkRecord d with
    | none =>
      have h' : r ∈ collectLoop ds acc := by simpa [collectLoop, hm] using h
      rcases ih acc r h' with hacc | ⟨pre, d1, post, hsplit, hmk, hpre, haccc⟩
      · left; exact hacc
      · right
        refine ⟨d :: pre, d1, post, by rw [hsplit]; rfl, hmk, ?_, haccc⟩
        intro d' hd' r' hr'
        rcases List.mem_cons.mp hd' with h1 | h1
        · subst h1; rw [hm] at hr'; cases hr'
        · exact hpre d' h1 r' hr'
    | some r0 =>
      by_cases hdup : acc.any (fun s => s.ip = r0.ip)
      · have h' : r ∈ collectLoop ds acc := by simpa [collectLoop, hm, hdup] using h
        rcases ih acc r h' with hacc | ⟨pre, d1, post, hsplit, hmk, hpre, haccc⟩
        · left; exact hacc
        · right
          refine ⟨d :: pre, d1, post, by rw [hsplit]; rfl, hmk, ?_, haccc⟩
          intro d' hd' r' hr'
          rcases List.mem_cons.mp hd' with h1 | h1
          · subst h1
            rw [hm] at hr'
            injection hr' with he
            subst he
            simp only [List.any_eq_true, decide_eq_true_eq] at hdup
            obtain ⟨a, ha, hae⟩ := hdup
            rw [← hae]
            exact haccc a ha
          · exact hpre d' h1 r' hr'
      · have h' : r ∈ collectLoop ds (acc ++ [r0]) := by
          simpa [collectLoop, hm, hdup] using h
        rcases ih (acc ++ [r0]) r h' with hacc | ⟨pre, d1, post, hsplit, hmk, hpre, haccc⟩
        · rcases List.mem_append.mp hacc with h1 | h1
          · left; exact h1
          · right
            rw [List.mem_singleton] at h1
            subst h1
            refine ⟨[], d, ds, rfl, hm, by simp, ?_⟩
            intro a ha hcontra
            simp only [List.any_eq_true, decide_eq_true_eq] at hdup
            exact hdup ⟨a, ha, hcontra⟩
        · right
          refine ⟨d :: pre, d1, post, by rw [hsplit]; rfl, hmk, ?_, ?_⟩
          · intro d' hd' r' hr'
            rcases List.mem_cons.mp hd' with h1 | h1
            · subst h1
              rw [hm] at hr'
              injection hr' with he
              subst he
              exact haccc r0 (by simp)
            · exact hpre d' h1 r' hr'
          · intro a ha
            exact haccc a (List.mem_append.mpr (Or.inl ha))

/-- C8: `search_devices` returns at most one record per address — the
addresses of the result are pairwise distinct, and each returned record was
built from the first datagram in the receive order carrying its address —
and the final filter keeps exactly the records whose app tag equals
`FileSenderMatrix` or is the empty string (old clients). -/
theorem C8_search_devices_dedup_and_filter (ds : List String) :
    ((search_devices ds).map FoundServer.ip).Nodup ∧
    (∀ r ∈ search_devices ds, r.app = APP_NAME ∨ r.app = "") ∧
    (∀ r ∈ search_devices ds, ∃ pre d post, ds = pre ++ d :: post ∧
      mkRecord d = some r ∧
      ∀ d' ∈ pre, ∀ r', mkRecord d' = some r' → r'.ip ≠ r.ip) := by
  refine ⟨?_, ?_, ?_⟩
  · have h1 := collectLoop_nodup ds [] (by simp)
    have hsub : List.Sublist (search_devices ds) (collectLoop ds []) :=
      List.filter_sublist _
    exact List.Nodup.sublist (List.Sublist.map FoundServer.ip hsub) h1
  · intro r hr
    have := List.of_mem_filter hr
    simpa using this
  · intro r hr
    have hr' : r ∈ collectLoop ds [] := List.mem_of_mem_filter hr
    rcases collectLoop_first ds [] r hr' with hacc | ⟨pre, d, post, hsplit, hmk, hpre, _⟩
    · cases hacc
    · exact ⟨pre, d, post, hsplit, hmk, hpre⟩

/-- Witness for C8: on a concrete datagram list with a duplicate address, a
foreign-app record and a short datagram, a returned empty-tag record indeed
satisfies the tag condition. -/
theorem C8_search_devices_witness :
    (({ hostname := "h4", ip := "3.3.3.3", app := "" } : FoundServer).app = APP_NAME ∨
     ({ hostname := "h4", ip := "3.3.3.3", app := "" } : FoundServer).app = "") :=
  (C8_search_devices_dedup_and_filter c8wDs).2.1 ⟨"h4", "3.3.3.3", ""⟩ (by decide)

end FileSender
